import Mathlib

/-!
Shallow embedding of the RAG_PDF application (`src/App.py`) in Lean 4.

The embedded core is the `FlowRAGSystem` class: the chunking loop of
`process_pdf` (lines 64-85), the page-filtering loop (lines 52-58), the
session-state mutation order of `process_pdf` (lines 38-111), the guard and
result construction of `search` (lines 113-159), the `search_query` handler
(lines 313-317) and the `update_status` accessor (lines 253-263).

External collaborators are parameters of the embedding:
* PDF extraction (`PdfReader` + `page.extract_text()`) is an
  `Except String (List (Option String))` argument: either an extraction
  failure (a raised exception, caught by the `try`/`except` of
  `process_pdf`) or the list of raw per-page texts (`none` models a page
  whose `extract_text()` returned `None`).
* the embedding model (`self.model.encode`) is a function argument
  returning `Except String (List Vec)`; an `Except.error` models a raised
  exception.
* `faiss.normalize_L2` is an opaque-by-parameter function `Vec → Vec`
  (floating-point L2 normalization has no exact rational counterpart and no
  claim depends on the normalized values).

Machine floats are modelled by `ℚ`: every claim about scores concerns only
order comparisons against the literals `0.5` and `0.3`, which are exact.
Python `str.split()` / `str.strip()` are modelled by structural recursion
over the character list of the string.
-/

/-- An embedding vector (a row of the matrix handed to faiss). -/
abbrev Vec := List ℚ

/-- One chunk record as built in `process_pdf` lines 79-83:
`{'text': ' '.join(chunk_words), 'page': page['page'], 'word_count': len(chunk_words)}`. -/
structure Chunk where
  text : String
  page : ℕ
  word_count : ℕ
deriving DecidableEq

/-- The faiss `IndexFlatIP` as observable through this program: its dimension
(line 97-98) and the matrix of added rows (line 100); `ntotal` is the number
of rows. -/
structure FaissIndex where
  dim : ℕ
  rows : List Vec
deriving DecidableEq

/-- The mutable fields of `FlowRAGSystem` (lines 13-18).  `self.model` is not
a field here: the encoder is passed to the operations as a function
argument, and `is_ready` records whether `initialize` succeeded. -/
structure RAGState where
  is_ready : Bool
  index : Option FaissIndex
  chunks : Option (List Chunk)
  current_file : Option String
deriving DecidableEq

/-- Helper for `pySplit`: accumulate the current word (reversed) while
scanning the character list; whitespace closes the current word. -/
def splitWsAux : List Char → List Char → List String
  | [], acc => if acc.isEmpty then [] else [String.mk acc.reverse]
  | c :: cs, acc =>
    if c.isWhitespace then
      if acc.isEmpty then splitWsAux cs [] else String.mk acc.reverse :: splitWsAux cs []
    else splitWsAux cs (c :: acc)

/-- Python `str.split()` (no argument): split on runs of whitespace,
dropping empty tokens.  Used at line 67 `words = page['text'].split()`. -/
def pySplit (s : String) : List String :=
  splitWsAux s.data []

/-- Python `str.strip()`: drop leading and trailing whitespace.  Used at
lines 54 and 57 (`text.strip()`). -/
def pyStrip (s : String) : String :=
  String.mk (((s.data.dropWhile Char.isWhitespace).reverse.dropWhile Char.isWhitespace).reverse)

/-- `' '.join(ws)` (line 80). -/
def joinSpace (ws : List String) : String :=
  String.intercalate " " ws

/-- The chunking `while` loop of `process_pdf` (lines 73-85) with
`chunk_size = 200` and `overlap = 40` (lines 70-71):

```
start = 0
while start < len(words):
    end = start + chunk_size
    chunk_words = words[start:end]
    if chunk_words:
        ...append...
    start += chunk_size - overlap
```

The loop terminates because the stride `200 - 40 = 160` is positive. -/
def chunkGo (words : List String) (start : ℕ) : List (List String) :=
  if start < words.length then
    let cw := (words.drop start).take 200
    if cw.isEmpty then chunkGo words (start + 160) else cw :: chunkGo words (start + 160)
  else []
termination_by words.length - start
decreasing_by all_goals omega

/-- All word windows of one page (the loop started at `start = 0`). -/
def chunkWindows (words : List String) : List (List String) :=
  chunkGo words 0

/-- The chunk records one page's word list contributes to `self.chunks`
(lines 73-85). -/
def chunksOfWords (pageNum : ℕ) (words : List String) : List Chunk :=
  (chunkWindows words).map fun cw => { text := joinSpace cw, page := pageNum, word_count := cw.length }

/-- Chunks of one page dict (lines 66-85): `words = page['text'].split()`
then the sliding-window loop. -/
def pageChunks (pageNum : ℕ) (text : String) : List Chunk :=
  chunksOfWords pageNum (pySplit text)

/-- The page-filtering loop (lines 50-58): enumerate raw page texts, keep
pages whose text is non-`None` and non-blank, storing `(i + 1, text.strip())`. -/
def buildPagesData (raw : List (Option String)) : List (ℕ × String) :=
  raw.enum.filterMap fun it =>
    match it.2 with
    | some t => if pyStrip t = "" then none else some (it.1 + 1, pyStrip t)
    | none => none

/-- `self.chunks` after the per-page loop (lines 65-85): per-page chunk
lists concatenated in page order. -/
def docChunks (pages_data : List (ℕ × String)) : List Chunk :=
  (pages_data.map fun p => pageChunks p.1 p.2).flatten

/-- `process_pdf` (lines 38-111) as a state transition.  Returns the new
`FlowRAGSystem` state together with the returned message string.
Mutation order is that of the source:
1. line 41 sets `self.current_file` before anything can fail;
2. a failure of file reading / `PdfReader` / `extract_text` raises and is
   caught at line 110 — only `current_file` has changed;
3. line 60: empty `pages_data` returns the no-text message — only
   `current_file` has changed;
4. lines 65-85 replace `self.chunks` with the new document's chunks;
5. line 90: a raising `self.model.encode` is caught at line 110 —
   `self.chunks` is already the new list while `self.index` still holds the
   previous index;
6. lines 97-100 replace `self.index` on success. -/
def process_pdf (normL2 : Vec → Vec) (encode : List String → Except String (List Vec))
    (s : RAGState) (fileName : String) (raw : Except String (List (Option String))) :
    RAGState × String :=
  let s1 : RAGState := { s with current_file := some fileName }
  match raw with
  | Except.error e => (s1, "❌ خطأ في معالجة PDF: " ++ e)
  | Except.ok rawPages =>
    let pages_data := buildPagesData rawPages
    if pages_data.isEmpty then (s1, "❌ لم يتم العثور على نص في الملف")
    else
      let chunks := docChunks pages_data
      let s2 : RAGState := { s1 with chunks := some chunks }
      if chunks.length > 0 then
        match encode (chunks.map (fun c => c.text)) with
        | Except.error e => (s2, "❌ خطأ في معالجة PDF: " ++ e)
        | Except.ok embeddings =>
          let dimension := (embeddings.headD []).length
          let s3 : RAGState := { s2 with index := some { dim := dimension, rows := embeddings.map normL2 } }
          (s3, "✅ تم معالجة المستند بنجاح!\n📊 " ++ toString pages_data.length ++ " صفحة → " ++ toString chunks.length ++ " جزء نصي")
      else (s2, "❌ لم يتم إنشاء أي أجزاء نصية")

/-- The similarity bucket decided at lines 129-137 (`ممتاز`/`جيد`/`ضعيف`,
rendered with the green/yellow/red color). -/
inductive Bucket
  | Excellent
  | Good
  | Weak
deriving DecidableEq

/-- Lines 129-137: `if score >= 0.5: ... elif score >= 0.3: ... else: ...`. -/
def bucketOf (score : ℚ) : Bucket :=
  if score ≥ 1 / 2 then Bucket.Excellent
  else if score ≥ 3 / 10 then Bucket.Good
  else Bucket.Weak

/-- The structured content of one rendered result block (lines 139-151):
its 1-based rank `#{i+1}`, the similarity score, the referenced chunk and
the bucket. -/
structure SearchResult where
  rank : ℕ
  score : ℚ
  chunk : Chunk
  bucket : Bucket
deriving DecidableEq

/-- Inner product of two vectors (what `IndexFlatIP` scores by). -/
def dot (u v : Vec) : ℚ :=
  (List.zipWith (fun a b => a * b) u v).sum

/-- Result order of the index search: better (larger) score first, ties by
ascending row index. -/
def searchRel (a b : ℚ × ℕ) : Prop :=
  b.1 < a.1 ∨ (a.1 = b.1 ∧ a.2 ≤ b.2)

instance : DecidableRel searchRel := fun a b =>
  inferInstanceAs (Decidable (b.1 < a.1 ∨ (a.1 = b.1 ∧ a.2 ≤ b.2)))

/-- Modelled from the spec: `faiss.IndexFlatIP.search` (called at line 120)
is library code that is not part of this repository's sources.  Following
spec §4.2, it is exact inner-product search: score every stored row against
the query, order descending by score with ties broken by ascending row
index, and return the best `min(k, N)` pairs `(score, row_index)`. -/
def indexSearch (rows : List Vec) (q : Vec) (k : ℕ) : List (ℚ × ℕ) :=
  (List.insertionSort searchRel (rows.enum.map fun p => (dot q p.2, p.1))).take k

/-- The outcome of `FlowRAGSystem.search` (lines 113-159), abstracting each
returned string to what it reports. -/
inductive SearchOutcome
  | notReady
  | failure (msg : String)
  | noResults
  | results (rs : List SearchResult)
deriving DecidableEq

/-- `FlowRAGSystem.search` (lines 113-159).
* line 115: `if not self.is_ready or self.index is None` → the not-ready
  message;
* line 119: the query embedding (a raising `encode` is caught at line 158);
* line 120: `self.index.search(query_embedding, top_k)`;
* lines 123-125: `for i, (score, idx) in enumerate(...)`: the rank counter
  `i` runs over all returned pairs, pairs whose `idx` is out of range for
  `self.chunks` are skipped;
* lines 128-151: build one result block with the bucket of the score;
* lines 153-156: empty result list → the no-results message.
`self.chunks` being `None` while `self.index` is set would raise `TypeError`
at `len(self.chunks)` and be caught at line 158. -/
def flowSearch (s : RAGState) (encodeQ : Except String Vec) (top_k : ℕ) : SearchOutcome :=
  if !s.is_ready || s.index.isNone then SearchOutcome.notReady
  else
    match encodeQ with
    | Except.error e => SearchOutcome.failure e
    | Except.ok qv =>
      match s.index, s.chunks with
      | some idx, some chunks =>
        let pairs := indexSearch idx.rows qv top_k
        let results := pairs.enum.filterMap fun pr =>
          if h : pr.2.2 < chunks.length then
            some { rank := pr.1 + 1, score := pr.2.1,
                   chunk := chunks.get ⟨pr.2.2, h⟩, bucket := bucketOf pr.2.1 }
          else (none : Option SearchResult)
        if results.isEmpty then SearchOutcome.noResults else SearchOutcome.results results
      | _, _ => SearchOutcome.failure "TypeError"

/-- The Gradio handler `search_query` (lines 313-317): an empty (falsy)
question string short-circuits with the warning message, otherwise
`rag_system.search(question, top_k)` runs.  The question string itself only
feeds the encoder, which is already abstracted into `encodeQ`. -/
def search_query (s : RAGState) (question : String) (top_k : ℕ)
    (encodeQ : Except String Vec) : SearchOutcome :=
  if question = "" then SearchOutcome.failure "⚠️ يرجى إدخال سؤال"
  else flowSearch s encodeQ top_k

/-- The chunk/vector part of the status line (`update_status`, lines
256-261): shown only when `self.chunks` is truthy (non-`None` and
non-empty); the vector count is appended when `self.index` is non-`None`. -/
def statusSuffix (chunks : Option (List Chunk)) (index : Option FaissIndex) : String :=
  match chunks with
  | some cs =>
    if cs.isEmpty then ""
    else
      " | 📊 الأجزاء: " ++ toString cs.length ++
        (match index with
         | some idx => " | 🧮 المتجهات: " ++ toString idx.rows.length
         | none => "")
  | none => ""

/-- `update_status` (lines 253-263).  `if rag_system.current_file:` is
Python truthiness: `None` and the empty string both fall through to the
no-document message. -/
def update_status (s : RAGState) : String :=
  match s.current_file with
  | some f => if f = "" then "📄 لم يتم معالجة أي مستند بعد" else "📄 الملف: " ++ f ++ statusSuffix s.chunks s.index
  | none => "📄 لم يتم معالجة أي مستند بعد"

/-- Number of windows the chunk loop emits for a page of `L` words:
`⌈L / 160⌉` (one window per loop iteration, stride 160). -/
def numCh (L : ℕ) : ℕ :=
  (L + 159) / 160

/-- The chunking `while` loop (lines 73-85) transcribed with the chunk size
and overlap as parameters and an explicit iteration budget `fuel`:
`none` means the budget was exhausted with the loop condition still true,
i.e. the loop has not terminated within `fuel` iterations.  The stride is
`size - overlap` (truncated subtraction: `0` when `overlap ≥ size`, exactly
the stride `start += chunk_size - overlap` yields there). -/
def slideFuel (size overlap : ℕ) (words : List String) :
    ℕ → ℕ → List (List String) → Option (List (List String))
  | fuel, start, acc =>
    if start < words.length then
      match fuel with
      | 0 => none
      | f + 1 =>
        let cw := (words.drop start).take size
        slideFuel size overlap words f (start + (size - overlap))
          (acc ++ if cw.isEmpty then [] else [cw])
    else some acc

/-- The chunk loop terminates on `words` for the configuration
`(size, overlap)`: some iteration budget suffices. -/
def slideTerminates (size overlap : ℕ) (words : List String) : Prop :=
  ∃ fuel, (slideFuel size overlap words fuel 0 []).isSome

/-! ## Helper lemmas about the chunk loop -/

theorem take_drop_ne_nil {words : List String} {start : ℕ} (h : start < words.length) :
    ((words.drop start).take 200).isEmpty = false := by
  have h2 : ((words.drop start).take 200).length = min 200 (words.length - start) := by
    rw [List.length_take, List.length_drop]
  have h3 : ((words.drop start).take 200) ≠ [] := by
    intro hnil
    rw [hnil] at h2
    simp at h2
    omega
  simpa [List.isEmpty_iff] using h3

theorem numCh_zero : numCh 0 = 0 := by decide

theorem numCh_succ_of_pos {n : ℕ} (h : 0 < n) : numCh n = numCh (n - 160) + 1 := by
  unfold numCh
  omega

/-- Closed form of the chunk loop: starting at `start`, it emits one window
`words[start + 160*i : start + 160*i + 200]` per iteration `i`, with
`⌈(len - start) / 160⌉` iterations in total. -/
theorem chunkGo_eq_windows (words : List String) : ∀ start,
    chunkGo words start =
      (List.range (numCh (words.length - start))).map
        (fun i => (words.drop (start + 160 * i)).take 200) := by
  have H : ∀ n start, words.length - start ≤ n →
      chunkGo words start =
        (List.range (numCh (words.length - start))).map
          (fun i => (words.drop (start + 160 * i)).take 200) := by
    intro n
    induction n with
    | zero =>
      intro start h
      have hs : ¬ start < words.length := by omega
      have h0 : words.length - start = 0 := by omega
      rw [chunkGo]
      simp [hs, h0, numCh_zero]
    | succ n ih =>
      intro start h
      by_cases hs : start < words.length
      · have hne := take_drop_ne_nil hs
        have hpos : 0 < words.length - start := by omega
        rw [chunkGo]
        simp only [if_pos hs, hne, Bool.false_eq_true, if_false]
        rw [ih (start + 160) (by omega)]
        rw [show words.length - (start + 160) = words.length - start - 160 from by omega]
        rw [numCh_succ_of_pos hpos, List.range_succ_eq_map, List.map_cons, List.map_map]
        congr 1
        apply List.map_congr_left
        intro a _
        simp only [Function.comp_apply, Nat.succ_eq_add_one]
        rw [show start + 160 * (a + 1) = start + 160 + 160 * a from by ring]
      · have h0 : words.length - start = 0 := by omega
        rw [chunkGo]
        simp [hs, h0, numCh_zero]
  intro start
  exact H (words.length - start) start le_rfl

theorem chunkWindows_eq (words : List String) :
    chunkWindows words =
      (List.range (numCh words.length)).map (fun i => (words.drop (160 * i)).take 200) := by
  unfold chunkWindows
  rw [chunkGo_eq_windows]
  simp

theorem chunksOfWords_eq (p : ℕ) (words : List String) :
    chunksOfWords p words =
      (List.range (numCh words.length)).map
        (fun i => { text := joinSpace ((words.drop (160 * i)).take 200), page := p,
                    word_count := ((words.drop (160 * i)).take 200).length : Chunk }) := by
  unfold chunksOfWords
  rw [chunkWindows_eq, List.map_map]
  rfl

theorem numCh_le_mul (L : ℕ) : L ≤ 160 * numCh L := by
  unfold numCh
  omega

theorem mul_pred_numCh_lt {L : ℕ} (h : 0 < L) : 160 * (numCh L - 1) < L := by
  unfold numCh
  omega

theorem window_ne_nil {words : List String} {i : ℕ} (hi : i < numCh words.length) :
    (words.drop (160 * i)).take 200 ≠ [] := by
  have hL : 0 < words.length := by
    by_contra hL
    have : words.length = 0 := by omega
    rw [this] at hi
    simp [numCh_zero] at hi
  have h1 : 160 * (numCh words.length - 1) < words.length := mul_pred_numCh_lt hL
  have h2 : 160 * i ≤ 160 * (numCh words.length - 1) := by
    have : i ≤ numCh words.length - 1 := by omega
    omega
  apply List.ne_nil_of_length_pos
  rw [List.length_take, List.length_drop]
  omega

theorem flatten_take160 (words : List String) (n : ℕ) :
    ((List.range n).map (fun i => (words.drop (160 * i)).take 160)).flatten =
      words.take (160 * n) := by
  induction n with
  | zero => simp
  | succ n ih =>
    rw [List.range_succ, List.map_append, List.flatten_append, ih]
    simp only [List.map_cons, List.map_nil, List.flatten_cons, List.flatten_nil, List.append_nil]
    rw [show 160 * (n + 1) = 160 * n + 160 from by ring, List.take_add]

/-! ## Claim C3 -/

/-- C3: the chunker is the fixed-stride sliding window: starting at index 0
with stride `size - overlap = 160`, the `i`-th chunk of a page is exactly
`words[i*160 : i*160 + 200]` joined by single spaces (its `word_count` the
window's length, its `page` the page number); one chunk is emitted per
window and every emitted window is non-empty; the loop stops at the first
start `≥ len(words)` (the window count `numCh` is the least `n` with
`160 * n ≥ len(words)`); an empty word list gives no chunks; and the
document's chunk list is the concatenation of the per-page chunk lists in
page order. -/
theorem chunker_sliding_window_fixed_stride (p : ℕ) (words : List String)
    (pages : List (ℕ × String)) :
    chunksOfWords p words =
      (List.range (numCh words.length)).map
        (fun i => { text := joinSpace ((words.drop (160 * i)).take 200), page := p,
                    word_count := ((words.drop (160 * i)).take 200).length : Chunk }) ∧
    (∀ i, i < numCh words.length → (words.drop (160 * i)).take 200 ≠ []) ∧
    (words = [] → chunksOfWords p words = []) ∧
    (0 < words.length →
      words.length ≤ 160 * numCh words.length ∧
      160 * (numCh words.length - 1) < words.length) ∧
    docChunks pages = (pages.map fun pr => pageChunks pr.1 pr.2).flatten := by
  refine ⟨chunksOfWords_eq p words, ?_, ?_, ?_, rfl⟩
  · intro i hi
    exact window_ne_nil hi
  · intro h
    subst h
    rw [chunksOfWords_eq]
    simp [numCh_zero]
  · intro hL
    exact ⟨numCh_le_mul words.length, mul_pred_numCh_lt hL⟩

/-- Witness for C3 at a concrete page of 250 words (the spec's end-to-end
example shape): the hypotheses of the inner conjuncts are discharged at
`i = 1` and at `words.length = 250`. -/
theorem chunker_sliding_window_fixed_stride_witness :
    ((List.replicate 250 "w").drop (160 * 1)).take 200 ≠ [] ∧
    (250 ≤ 160 * numCh 250 ∧ 160 * (numCh 250 - 1) < 250) := by
  have h := chunker_sliding_window_fixed_stride 1 (List.replicate 250 "w") []
  refine ⟨h.2.1 1 ?_, ?_⟩
  · simp only [List.length_replicate]
    norm_num [numCh]
  · have h2 := h.2.2.2.1 (by simp only [List.length_replicate]; norm_num)
    simpa only [List.length_replicate] using h2

/-! ## Claim C2 -/

/-- C2 (amended): a page of `L` words yields exactly one chunk iff
`0 < L ≤ size - overlap = 160`; that chunk carries all `L` words and
`word_count = L`.  For `160 < L ≤ 200` (the claim's remaining range) the
first chunk still carries all `L` words, but the loop emits a second chunk
made of the last `L - 160` words. -/
theorem chunker_one_chunk_iff_le_stride (p : ℕ) (words : List String) :
    (0 < words.length → words.length ≤ 160 →
      chunksOfWords p words =
        [{ text := joinSpace words, page := p, word_count := words.length }]) ∧
    (160 < words.length → words.length ≤ 200 →
      chunksOfWords p words =
        [{ text := joinSpace words, page := p, word_count := words.length },
         { text := joinSpace (words.drop 160), page := p,
           word_count := words.length - 160 }]) := by
  constructor
  · intro h1 h2
    rw [chunksOfWords_eq]
    have hn : numCh words.length = 1 := by
      unfold numCh
      omega
    rw [hn, show List.range 1 = [0] from by decide]
    have htake : words.take 200 = words := List.take_of_length_le (by omega)
    simp [htake]
    omega
  · intro h1 h2
    rw [chunksOfWords_eq]
    have hn : numCh words.length = 2 := by
      unfold numCh
      omega
    rw [hn]
    have htake : words.take 200 = words := List.take_of_length_le (by omega)
    have htake2 : (words.drop 160).take 200 = words.drop 160 :=
      List.take_of_length_le (by rw [List.length_drop]; omega)
    have hrange : List.range 2 = [0, 1] := by decide
    rw [hrange]
    simp [htake, htake2]
    omega

/-- Witness for C2 (amended) at a 100-word page and at a 161-word page. -/
theorem chunker_one_chunk_iff_le_stride_witness :
    chunksOfWords 1 (List.replicate 100 "w") =
      [{ text := joinSpace (List.replicate 100 "w"), page := 1, word_count := 100 }] ∧
    chunksOfWords 1 (List.replicate 161 "w") =
      [{ text := joinSpace (List.replicate 161 "w"), page := 1, word_count := 161 },
       { text := joinSpace ((List.replicate 161 "w").drop 160), page := 1, word_count := 1 }] := by
  constructor
  · have h := (chunker_one_chunk_iff_le_stride 1 (List.replicate 100 "w")).1
    simpa only [List.length_replicate] using
      h (by simp only [List.length_replicate]; norm_num) (by simp only [List.length_replicate]; norm_num)
  · have h := (chunker_one_chunk_iff_le_stride 1 (List.replicate 161 "w")).2
    simpa only [List.length_replicate, Nat.reduceSub] using
      h (by simp only [List.length_replicate]; norm_num) (by simp only [List.length_replicate]; norm_num)

/-- Counterexample to C2 as stated: a page of `L = 161` words satisfies
`0 < L ≤ size = 200`, yet the loop emits two chunks, not one (the second
iteration starts at `start = 160 < 161`). -/
theorem chunker_two_chunks_at_161 :
    0 < (List.replicate 161 "w").length ∧
    (List.replicate 161 "w").length ≤ 200 ∧
    (chunksOfWords 1 (List.replicate 161 "w")).length = 2 ∧
    ¬ (chunksOfWords 1 (List.replicate 161 "w")).length = 1 := by
  have h : (chunksOfWords 1 (List.replicate 161 "w")).length = 2 := by
    rw [chunksOfWords_eq]
    simp only [List.length_map, List.length_range, List.length_replicate]
    norm_num [numCh]
  refine ⟨?_, ?_, h, by omega⟩
  · simp only [List.length_replicate]
    norm_num
  · simp only [List.length_replicate]
    norm_num

/-! ## Claim C8 -/

theorem chunkWindows_getD {words : List String} {i : ℕ} (hi : i < numCh words.length) :
    (chunkWindows words).getD i [] = (words.drop (160 * i)).take 200 := by
  rw [chunkWindows_eq]
  have hlen : i < ((List.range (numCh words.length)).map
      (fun j => (words.drop (160 * j)).take 200)).length := by
    simpa using hi
  rw [List.getD_eq_getElem?_getD, List.getElem?_eq_getElem hlen]
  simp

/-- C8: with `size = 200`, `overlap = 40`: concatenating the first
`size - overlap = 160` words of every chunk except the last, followed by the
whole last chunk, reconstructs the page's word sequence exactly; and any two
consecutive full-size (200-word) chunks share exactly `overlap = 40` words
(the 40-word suffix of the first is the 40-word prefix of the second). -/
theorem chunker_overlap_reconstruction (words : List String) (h : words ≠ []) :
    ((chunkWindows words).dropLast.map (fun c => c.take 160)).flatten ++
        (chunkWindows words).getLastD [] = words ∧
    (∀ i, i + 1 < (chunkWindows words).length →
      ((chunkWindows words).getD i []).length = 200 →
      ((chunkWindows words).getD (i + 1) []).length = 200 →
      ((chunkWindows words).getD i []).drop 160 = ((chunkWindows words).getD (i + 1) []).take 40 ∧
      (((chunkWindows words).getD i []).drop 160).length = 40) := by
  have hL : 0 < words.length := List.length_pos.mpr h
  have hm : 0 < numCh words.length := by
    unfold numCh
    omega
  set m := numCh words.length with hmdef
  have hle : words.length ≤ 160 * m := numCh_le_mul words.length
  constructor
  · -- reconstruction
    have hsplit : List.range m = List.range (m - 1) ++ [m - 1] := by
      rw [← List.range_succ]
      congr 1
      omega
    rw [chunkWindows_eq, ← hmdef, hsplit, List.map_append]
    simp only [List.map_cons, List.map_nil]
    rw [List.dropLast_concat]
    rw [show ∀ l a, (l ++ [a] : List (List String)).getLastD [] = a from by intro l a; simp]
    have hlast : ((words.drop (160 * (m - 1))).take 200) = words.drop (160 * (m - 1)) := by
      apply List.take_of_length_le
      rw [List.length_drop]
      omega
    rw [hlast, List.map_map]
    have hcomp : ((fun c => List.take 160 c) ∘ fun i => (words.drop (160 * i)).take 200) =
        fun i => (words.drop (160 * i)).take 160 := by
      funext i
      simp [List.take_take]
    rw [hcomp, flatten_take160, List.take_append_drop]
  · -- consecutive full-size chunks share exactly 40 words
    intro i hi1 hfull1 hfull2
    have hilen : i + 1 < m := by
      rw [chunkWindows_eq, ← hmdef] at hi1
      simpa using hi1
    have hw1 : (chunkWindows words).getD i [] = (words.drop (160 * i)).take 200 :=
      chunkWindows_getD (by omega)
    have hw2 : (chunkWindows words).getD (i + 1) [] = (words.drop (160 * (i + 1))).take 200 :=
      chunkWindows_getD (by omega)
    rw [hw1, hw2]
    rw [hw2] at hfull2
    have hlen2 : 160 * (i + 1) + 200 ≤ words.length := by
      rw [List.length_take, List.length_drop] at hfull2
      omega
    constructor
    · rw [List.drop_take, List.drop_drop]
      rw [show 160 * i + 160 = 160 * (i + 1) from by ring]
      norm_num [List.take_take]
    · rw [List.length_drop, List.length_take, List.length_drop]
      omega

/-- Witness for C8 at the spec's end-to-end example shape (250 words):
250 words give chunks `words[0:200]` and `words[160:250]`, and the
reconstruction equality holds there. -/
theorem chunker_overlap_reconstruction_witness :
    ((chunkWindows (List.replicate 250 "w")).dropLast.map (fun c => c.take 160)).flatten ++
        (chunkWindows (List.replicate 250 "w")).getLastD [] = List.replicate 250 "w" :=
  (chunker_overlap_reconstruction (List.replicate 250 "w")
    (by apply List.ne_nil_of_length_pos; simp only [List.length_replicate]; norm_num)).1

/-! ## Claim C9 -/

theorem slideFuel_stride_zero_none : ∀ fuel acc,
    slideFuel 1 1 ["a"] fuel 0 acc = none := by
  intro fuel
  induction fuel with
  | zero =>
    intro acc
    rw [slideFuel]
    simp
  | succ f ih =>
    intro acc
    rw [slideFuel]
    simpa using ih _

/-- Counterexample to C9 as stated: the code performs no configuration
validation at all (there is no `InvalidConfigError` anywhere in
`src/App.py`); with `overlap = size` the stride `size - overlap` is `0`,
`start` never advances, and the chunking loop never terminates: no
iteration budget makes it finish on the one-word page `["a"]`. -/
theorem chunker_no_validation_loops_forever :
    ¬ slideTerminates 1 1 ["a"] := by
  rintro ⟨fuel, hf⟩
  rw [slideFuel_stride_zero_none] at hf
  simp at hf

theorem slideFuel_isSome_of_enough_fuel (size overlap : ℕ)
    (words : List String) : ∀ fuel start acc,
    words.length ≤ start + fuel * (size - overlap) →
    (slideFuel size overlap words fuel start acc).isSome = true := by
  intro fuel
  induction fuel with
  | zero =>
    intro start acc hle
    have hs : ¬ start < words.length := by omega
    rw [slideFuel]
    simp [hs]
  | succ f ih =>
    intro start acc hle
    rw [slideFuel]
    by_cases hs : start < words.length
    · simp only [if_pos hs]
      apply ih
      rw [Nat.succ_mul] at hle
      omega
    · simp [hs]

/-- C9 (amended): `src/App.py` never validates the chunk configuration and
raises no `InvalidConfigError` — the parameters are hardcoded to
`size = 200 > overlap = 40 ≥ 0` at lines 70-71 (with `overlap ≥ size` the
loop would never terminate, see the counterexample) — and under the
precondition `size > overlap` the sliding-window loop terminates for every
finite word sequence, because the stride `size - overlap` is positive. -/
theorem chunker_terminates_of_overlap_lt_size (size overlap : ℕ) (words : List String)
    (h : overlap < size) : slideTerminates size overlap words := by
  refine ⟨words.length, ?_⟩
  apply slideFuel_isSome_of_enough_fuel size overlap
  have hd : 0 < size - overlap := by omega
  have := Nat.le_mul_of_pos_right words.length hd
  omega

/-- Witness for C9 (amended) at the hardcoded configuration
`size = 200, overlap = 40` on a two-word page. -/
theorem chunker_terminates_witness :
    (40 : ℕ) < 200 ∧ slideTerminates 200 40 ["alpha", "beta"] :=
  ⟨by norm_num, chunker_terminates_of_overlap_lt_size 200 40 ["alpha", "beta"] (by norm_num)⟩

/-! ## Claim C4 -/

/-- C4: the quality bucket of a search score is `Excellent` iff
`score ≥ 0.5`, `Good` iff `0.3 ≤ score < 0.5`, and `Weak` iff
`score < 0.3`; both bucket boundaries are inclusive on the lower bound of
their bucket (lines 129-137). -/
theorem bucket_threshold_boundaries (score : ℚ) :
    (bucketOf score = Bucket.Excellent ↔ 1 / 2 ≤ score) ∧
    (bucketOf score = Bucket.Good ↔ 3 / 10 ≤ score ∧ score < 1 / 2) ∧
    (bucketOf score = Bucket.Weak ↔ score < 3 / 10) := by
  unfold bucketOf
  split_ifs with h1 h2
  · refine ⟨iff_of_true rfl h1, iff_of_false (by decide) ?_, iff_of_false (by decide) ?_⟩
    · rintro ⟨-, hlt⟩
      linarith
    · intro hlt
      linarith
  · refine ⟨iff_of_false (by decide) h1, iff_of_true rfl ⟨h2, not_le.mp h1⟩,
      iff_of_false (by decide) ?_⟩
    intro hlt
    linarith
  · refine ⟨iff_of_false (by decide) h1, iff_of_false (by decide) ?_, iff_of_true rfl (not_le.mp h2)⟩
    rintro ⟨hge, -⟩
    exact h2 hge

/-! ## Claim C5 -/

instance : IsTotal (ℚ × ℕ) searchRel := ⟨by
  intro a b
  unfold searchRel
  rcases lt_trichotomy a.1 b.1 with h | h | h
  · exact Or.inr (Or.inl h)
  · rcases le_total a.2 b.2 with h2 | h2
    · exact Or.inl (Or.inr ⟨h, h2⟩)
    · exact Or.inr (Or.inr ⟨h.symm, h2⟩)
  · exact Or.inl (Or.inl h)⟩

instance : IsTrans (ℚ × ℕ) searchRel := ⟨by
  intro a b c hab hbc
  unfold searchRel at hab hbc ⊢
  rcases hab with h1 | ⟨h1, h2⟩ <;> rcases hbc with h3 | ⟨h3, h4⟩
  · exact Or.inl (lt_trans h3 h1)
  · exact Or.inl (h3 ▸ h1)
  · exact Or.inl (by rw [h1]; exact h3)
  · exact Or.inr ⟨by rw [h1, h3], le_trans h2 h4⟩⟩

theorem scored_pairs_map_snd (rows : List Vec) (q : Vec) :
    ((rows.enum.map fun p => (dot q p.2, p.1)).map Prod.snd) = List.range rows.length := by
  rw [List.map_map]
  have hc : (Prod.snd ∘ fun p : ℕ × Vec => (dot q p.2, p.1)) = Prod.fst := rfl
  rw [hc, List.enum_map_fst]

theorem indexSearch_map_snd_perm (rows : List Vec) (q : Vec) :
    List.Perm ((List.insertionSort searchRel (rows.enum.map fun p => (dot q p.2, p.1))).map Prod.snd)
      (List.range rows.length) := by
  rw [← scored_pairs_map_snd rows q]
  exact (List.perm_insertionSort searchRel _).map Prod.snd

theorem indexSearch_snd_nodup (rows : List Vec) (q : Vec) (k : ℕ) :
    ((indexSearch rows q k).map Prod.snd).Nodup := by
  unfold indexSearch
  rw [List.map_take]
  refine List.Nodup.sublist (List.take_sublist k _) ?_
  exact ((indexSearch_map_snd_perm rows q).nodup_iff).mpr (List.nodup_range rows.length)

theorem indexSearch_pairwise (rows : List Vec) (q : Vec) (k : ℕ) :
    (indexSearch rows q k).Pairwise searchRel := by
  unfold indexSearch
  refine List.Pairwise.sublist (List.take_sublist k _) ?_
  exact List.sorted_insertionSort searchRel _

/-- C5 (spec-modelled index search): for every list of `N` stored rows,
query vector and `k`, the search result has length `min k N`, is ordered by
non-increasing score, breaks score ties by strictly ascending row index,
and every returned row index is a valid position in the stored rows
(hence in `self.chunks` after a successful build, whose length equals `N`). -/
theorem index_search_ranked_results (rows : List Vec) (q : Vec) (k : ℕ) :
    (indexSearch rows q k).length = min k rows.length ∧
    (∀ i j (hi : i < (indexSearch rows q k).length) (hj : j < (indexSearch rows q k).length),
      i < j →
      ((indexSearch rows q k).get ⟨j, hj⟩).1 ≤ ((indexSearch rows q k).get ⟨i, hi⟩).1) ∧
    (∀ i j (hi : i < (indexSearch rows q k).length) (hj : j < (indexSearch rows q k).length),
      i < j →
      ((indexSearch rows q k).get ⟨i, hi⟩).1 = ((indexSearch rows q k).get ⟨j, hj⟩).1 →
      ((indexSearch rows q k).get ⟨i, hi⟩).2 < ((indexSearch rows q k).get ⟨j, hj⟩).2) ∧
    (∀ pr, pr ∈ indexSearch rows q k → pr.2 < rows.length) := by
  have hpw := indexSearch_pairwise rows q k
  have hget := List.pairwise_iff_get.mp hpw
  refine ⟨?_, ?_, ?_, ?_⟩
  · unfold indexSearch
    rw [List.length_take, (List.perm_insertionSort searchRel _).length_eq,
      List.length_map, List.enum_length]
  · intro i j hi hj hij
    have h := hget ⟨i, hi⟩ ⟨j, hj⟩ hij
    unfold searchRel at h
    rcases h with h | ⟨h, _⟩
    · exact le_of_lt h
    · exact le_of_eq h.symm
  · intro i j hi hj hij heq
    have h := hget ⟨i, hi⟩ ⟨j, hj⟩ hij
    unfold searchRel at h
    have hle : ((indexSearch rows q k).get ⟨i, hi⟩).2 ≤ ((indexSearch rows q k).get ⟨j, hj⟩).2 := by
      rcases h with h | ⟨_, h2⟩
      · exact absurd heq (ne_of_gt h)
      · exact h2
    have hnodup := indexSearch_snd_nodup rows q k
    have hne : ((indexSearch rows q k).get ⟨i, hi⟩).2 ≠ ((indexSearch rows q k).get ⟨j, hj⟩).2 := by
      intro hsnd
      have hmi : i < ((indexSearch rows q k).map Prod.snd).length := by
        rw [List.length_map]; exact hi
      have hmj : j < ((indexSearch rows q k).map Prod.snd).length := by
        rw [List.length_map]; exact hj
      have hgi : ((indexSearch rows q k).map Prod.snd).get ⟨i, hmi⟩ =
          ((indexSearch rows q k).map Prod.snd).get ⟨j, hmj⟩ := by
        rw [List.get_map, List.get_map]
        exact hsnd
      have := (hnodup.get_inj_iff).mp hgi
      have hij2 : i = j := congrArg Fin.val this
      omega
    exact lt_of_le_of_ne hle hne
  · intro pr hpr
    have hmem : pr.2 ∈ (indexSearch rows q k).map Prod.snd := List.mem_map_of_mem Prod.snd hpr
    unfold indexSearch at hmem
    rw [List.map_take] at hmem
    have hmem2 : pr.2 ∈ (List.insertionSort searchRel (rows.enum.map fun p => (dot q p.2, p.1))).map Prod.snd :=
      List.mem_of_mem_take hmem
    have hmem3 : pr.2 ∈ List.range rows.length :=
      ((indexSearch_map_snd_perm rows q).mem_iff).mp hmem2
    exact List.mem_range.mp hmem3

/-- Witness for C5 at a concrete two-row index: rows `[[1], [1/2]]`, query
`[1]`, `k = 5` — two results, scores `1` then `1/2`, indices `0` then `1`. -/
theorem index_search_ranked_results_witness :
    (indexSearch [[1], [1 / 2]] [1] 5).length = min 5 2 ∧
    ((indexSearch [[1], [1 / 2]] [1] 5).get
        ⟨1, by rw [(index_search_ranked_results [[1], [1 / 2]] [1] 5).1]; norm_num⟩).1 ≤
      ((indexSearch [[1], [1 / 2]] [1] 5).get
        ⟨0, by rw [(index_search_ranked_results [[1], [1 / 2]] [1] 5).1]; norm_num⟩).1 ∧
    (∀ pr, pr ∈ indexSearch [[1], [1 / 2]] [1] 5 → pr.2 < 2) := by
  have h := index_search_ranked_results [[1], [1 / 2]] [1] 5
  refine ⟨h.1, h.2.1 0 1 _ _ (by norm_num), ?_⟩
  intro pr hpr
  simpa using h.2.2.2 pr hpr

/-! ## Concrete evaluation helpers for the state-machine claims -/

/-- Initial state after a successful `initialize` and before any document
(`__init__`, lines 13-18, with `is_ready = True`). -/
def exS0 : RAGState :=
  { is_ready := true, index := none, chunks := none, current_file := none }

/-- The session state a successful `process_pdf` of the one-word page
`"alpha"` produces (used by several concrete scenarios below). -/
def exReady : RAGState :=
  { is_ready := true, index := some { dim := 1, rows := [[1]] },
    chunks := some [{ text := "alpha", page := 1, word_count := 1 }],
    current_file := some "doc1.pdf" }

theorem chunkWindows_singleton (w : String) : chunkWindows [w] = [[w]] := by
  rw [chunkWindows_eq]
  have h1 : numCh ([w] : List String).length = 1 := by norm_num [numCh]
  rw [h1, show List.range 1 = [0] from by decide]
  simp

theorem pageChunks_alpha : pageChunks 1 "alpha" = [{ text := "alpha", page := 1, word_count := 1 }] := by
  unfold pageChunks chunksOfWords
  rw [show pySplit "alpha" = ["alpha"] from by decide, chunkWindows_singleton]
  simp [joinSpace]
  decide

theorem pageChunks_beta : pageChunks 1 "beta" = [{ text := "beta", page := 1, word_count := 1 }] := by
  unfold pageChunks chunksOfWords
  rw [show pySplit "beta" = ["beta"] from by decide, chunkWindows_singleton]
  simp [joinSpace]
  decide

theorem docChunks_alpha :
    docChunks (buildPagesData [some "alpha"]) = [{ text := "alpha", page := 1, word_count := 1 }] := by
  rw [show buildPagesData [some "alpha"] = [(1, "alpha")] from by decide]
  simp [docChunks, pageChunks_alpha]

theorem docChunks_beta :
    docChunks (buildPagesData [some "beta"]) = [{ text := "beta", page := 1, word_count := 1 }] := by
  rw [show buildPagesData [some "beta"] = [(1, "beta")] from by decide]
  simp [docChunks, pageChunks_beta]

theorem call1_eval :
    (process_pdf id (fun _ => Except.ok [[1]]) exS0 "doc1.pdf" (Except.ok [some "alpha"])).1 =
      exReady := by
  have hb : buildPagesData [some "alpha"] = [(1, "alpha")] := by decide
  have hd : docChunks [(1, "alpha")] = [{ text := "alpha", page := 1, word_count := 1 }] := by
    simp [docChunks, pageChunks_alpha]
  simp [process_pdf, hb, hd, exS0, exReady]

theorem call2_eval :
    (process_pdf id (fun _ => Except.error "EmbeddingError") exReady "doc2.pdf"
        (Except.ok [some "beta"])) =
      ({ is_ready := true, index := some { dim := 1, rows := [[1]] },
         chunks := some [{ text := "beta", page := 1, word_count := 1 }],
         current_file := some "doc2.pdf" },
       "❌ خطأ في معالجة PDF: EmbeddingError") := by
  have hb : buildPagesData [some "beta"] = [(1, "beta")] := by decide
  have hd : docChunks [(1, "beta")] = [{ text := "beta", page := 1, word_count := 1 }] := by
    simp [docChunks, pageChunks_beta]
  simp [process_pdf, hb, hd, exReady]

/-! ## Claim C1 -/

/-- C1 (amended): a `process_pdf` failure before chunking (PDF read error
or no extractable text) leaves the previous session's `chunks` and `index`
intact; but a failure after chunking (the unreachable zero-chunks branch,
or an embedding failure) leaves `self.chunks` already replaced by the new
document's chunks while `self.index` still holds the previous document's
index — a mixture of old and new state, not the last successful session.
Only a fully successful call replaces both. -/
theorem process_pdf_failure_effects (normL2 : Vec → Vec)
    (encode : List String → Except String (List Vec)) (s : RAGState) (fileName : String)
    (raw : Except String (List (Option String))) :
    (∀ e, raw = Except.error e →
      (process_pdf normL2 encode s fileName raw).1.chunks = s.chunks ∧
      (process_pdf normL2 encode s fileName raw).1.index = s.index) ∧
    (∀ rawPages, raw = Except.ok rawPages → buildPagesData rawPages = [] →
      (process_pdf normL2 encode s fileName raw).1.chunks = s.chunks ∧
      (process_pdf normL2 encode s fileName raw).1.index = s.index) ∧
    (∀ rawPages e, raw = Except.ok rawPages → buildPagesData rawPages ≠ [] →
      docChunks (buildPagesData rawPages) ≠ [] →
      encode ((docChunks (buildPagesData rawPages)).map (fun c => c.text)) = Except.error e →
      (process_pdf normL2 encode s fileName raw).1.chunks =
        some (docChunks (buildPagesData rawPages)) ∧
      (process_pdf normL2 encode s fileName raw).1.index = s.index) ∧
    (∀ rawPages, raw = Except.ok rawPages → buildPagesData rawPages ≠ [] →
      docChunks (buildPagesData rawPages) = [] →
      (process_pdf normL2 encode s fileName raw).1.chunks = some [] ∧
      (process_pdf normL2 encode s fileName raw).1.index = s.index) ∧
    (∀ rawPages embeddings, raw = Except.ok rawPages → buildPagesData rawPages ≠ [] →
      docChunks (buildPagesData rawPages) ≠ [] →
      encode ((docChunks (buildPagesData rawPages)).map (fun c => c.text)) =
        Except.ok embeddings →
      (process_pdf normL2 encode s fileName raw).1.chunks =
        some (docChunks (buildPagesData rawPages)) ∧
      (process_pdf normL2 encode s fileName raw).1.index =
        some { dim := (embeddings.headD []).length, rows := embeddings.map normL2 }) := by
  refine ⟨?_, ?_, ?_, ?_, ?_⟩
  · intro e he
    subst he
    simp [process_pdf]
  · intro rawPages he hempty
    subst he
    simp [process_pdf, List.isEmpty_iff, hempty]
  · intro rawPages e he hpne hdne henc
    subst he
    have h1 : (buildPagesData rawPages).isEmpty = false := by
      simpa [List.isEmpty_iff] using hpne
    have h2 : 0 < (docChunks (buildPagesData rawPages)).length := List.length_pos.mpr hdne
    simp [process_pdf, h1, h2, henc]
  · intro rawPages he hpne hdc
    subst he
    have h1 : (buildPagesData rawPages).isEmpty = false := by
      simpa [List.isEmpty_iff] using hpne
    simp [process_pdf, h1, hdc]
  · intro rawPages embeddings he hpne hdne henc
    subst he
    have h1 : (buildPagesData rawPages).isEmpty = false := by
      simpa [List.isEmpty_iff] using hpne
    have h2 : 0 < (docChunks (buildPagesData rawPages)).length := List.length_pos.mpr hdne
    simp [process_pdf, h1, h2, henc]

/-- Witness for C1 (amended), at the embedding-failure scenario: processing
the page `"beta"` over the session built from `"alpha"` with a failing
encoder leaves `chunks` replaced but `index` untouched. -/
theorem process_pdf_failure_effects_witness :
    (process_pdf id (fun _ => Except.error "EmbeddingError") exReady "doc2.pdf"
        (Except.ok [some "beta"])).1.chunks =
      some (docChunks (buildPagesData [some "beta"])) ∧
    (process_pdf id (fun _ => Except.error "EmbeddingError") exReady "doc2.pdf"
        (Except.ok [some "beta"])).1.index = exReady.index :=
  (process_pdf_failure_effects id (fun _ => Except.error "EmbeddingError") exReady "doc2.pdf"
      (Except.ok [some "beta"])).2.2.1 [some "beta"] "EmbeddingError" rfl
    (by decide)
    (by rw [docChunks_beta]; decide)
    rfl

/-- Counterexample to C1 as stated: after a successful `process_pdf` of the
page `"alpha"` (index `[[1]]`, chunks `["alpha"]`), a second `process_pdf`
of the page `"beta"` whose embedding call fails returns the error message,
yet leaves `self.chunks` holding the NEW document's chunks while
`self.index` still holds the OLD document's index — the session observable
by subsequent `search` calls is a mixture, not the session left by the last
successful call. -/
theorem process_pdf_failed_rebuild_not_atomic :
    (process_pdf id (fun _ => Except.error "EmbeddingError")
        (process_pdf id (fun _ => Except.ok [[1]]) exS0 "doc1.pdf"
          (Except.ok [some "alpha"])).1
        "doc2.pdf" (Except.ok [some "beta"])).2 =
      "❌ خطأ في معالجة PDF: EmbeddingError" ∧
    (process_pdf id (fun _ => Except.error "EmbeddingError")
        (process_pdf id (fun _ => Except.ok [[1]]) exS0 "doc1.pdf"
          (Except.ok [some "alpha"])).1
        "doc2.pdf" (Except.ok [some "beta"])).1.index =
      ((process_pdf id (fun _ => Except.ok [[1]]) exS0 "doc1.pdf"
          (Except.ok [some "alpha"])).1).index ∧
    (process_pdf id (fun _ => Except.error "EmbeddingError")
        (process_pdf id (fun _ => Except.ok [[1]]) exS0 "doc1.pdf"
          (Except.ok [some "alpha"])).1
        "doc2.pdf" (Except.ok [some "beta"])).1.chunks ≠
      ((process_pdf id (fun _ => Except.ok [[1]]) exS0 "doc1.pdf"
          (Except.ok [some "alpha"])).1).chunks := by
  rw [call1_eval, call2_eval]
  refine ⟨rfl, rfl, ?_⟩
  simp [exReady]

/-! ## Claim C6 -/

/-- C6: a query issued while the session is empty (no successful build has
set `self.index`, so it is still `None`) hits the guard at line 115 and
returns the not-ready message — never a result list. -/
theorem search_requires_built_index (s : RAGState) (encodeQ : Except String Vec) (top_k : ℕ)
    (h : s.index = none) :
    flowSearch s encodeQ top_k = SearchOutcome.notReady ∧
    ∀ rs, flowSearch s encodeQ top_k ≠ SearchOutcome.results rs := by
  have hn : s.index.isNone = true := by simp [h]
  constructor
  · unfold flowSearch
    simp [hn]
  · intro rs
    unfold flowSearch
    simp [hn]

/-- Witness for C6 at the freshly initialized state (no document yet). -/
theorem search_requires_built_index_witness :
    flowSearch exS0 (Except.ok [1]) 3 = SearchOutcome.notReady :=
  (search_requires_built_index exS0 (Except.ok [1]) 3 rfl).1

/-! ## Claim C7 -/

/-- C7 (amended): `search_query` (line 314) rejects only the exactly-empty
question string (Python falsiness of `""`); any other string — including
whitespace-only strings, which are non-empty and truthy — is passed on to
`FlowRAGSystem.search`, so the embedder and the index search do run for
whitespace-only queries.  No trimming is performed anywhere. -/
theorem search_query_rejects_only_empty_string (s : RAGState) (question : String) (top_k : ℕ)
    (encodeQ : Except String Vec) :
    (question = "" →
      search_query s question top_k encodeQ = SearchOutcome.failure "⚠️ يرجى إدخال سؤال") ∧
    (question ≠ "" →
      search_query s question top_k encodeQ = flowSearch s encodeQ top_k) := by
  constructor
  · intro h
    simp [search_query, h]
  · intro h
    simp [search_query, h]

/-- Witness for C7 (amended): the empty question is rejected; the
whitespace question `" "` on the ready session is handed to the search. -/
theorem search_query_rejects_only_empty_string_witness :
    search_query exReady "" 3 (Except.ok [1]) = SearchOutcome.failure "⚠️ يرجى إدخال سؤال" ∧
    search_query exReady " " 3 (Except.ok [1]) = flowSearch exReady (Except.ok [1]) 3 :=
  ⟨(search_query_rejects_only_empty_string exReady "" 3 (Except.ok [1])).1 rfl,
   (search_query_rejects_only_empty_string exReady " " 3 (Except.ok [1])).2 (by decide)⟩

/-- Counterexample to C7 as stated: the query `" "` is empty after trimming
(`pyStrip " " = ""`), yet on a ready session `search_query` does not fail
with any empty-query error — it runs the embedding and the index search and
returns a result list. -/
theorem whitespace_query_reaches_search :
    pyStrip " " = "" ∧
    search_query exReady " " 3 (Except.ok [1]) =
      SearchOutcome.results
        [{ rank := 1, score := 1, chunk := { text := "alpha", page := 1, word_count := 1 },
           bucket := Bucket.Excellent }] := by
  constructor
  · decide
  · have hdot : dot [1] [1] = 1 := by norm_num [dot]
    have hsearch : indexSearch [[1]] [1] 3 = [(1, 0)] := by
      simp [indexSearch, List.insertionSort, List.orderedInsert, List.enum, hdot]
    have hbucket : bucketOf 1 = Bucket.Excellent := by norm_num [bucketOf]
    simp [search_query, flowSearch, exReady, hsearch, hbucket, List.enum]

/-! ## Claim C10 -/

/-- C10: line 41 sets `self.current_file` at the very start of
`process_pdf`, before any validation or indexing, so it is the new file's
name in every outcome; after a failing call (here: extraction failure) the
status accessor `update_status` reports the new file's name while the
chunk/vector part of the status line — and the queryable session itself —
still belongs to the previously processed document. -/
theorem current_file_updated_before_validation (normL2 : Vec → Vec)
    (encode : List String → Except String (List Vec)) (s : RAGState) (fileName : String)
    (raw : Except String (List (Option String))) :
    (process_pdf normL2 encode s fileName raw).1.current_file = some fileName ∧
    (∀ e, raw = Except.error e → fileName ≠ "" →
      (process_pdf normL2 encode s fileName raw).1.chunks = s.chunks ∧
      (process_pdf normL2 encode s fileName raw).1.index = s.index ∧
      update_status (process_pdf normL2 encode s fileName raw).1 =
        "📄 الملف: " ++ fileName ++ statusSuffix s.chunks s.index) := by
  constructor
  · unfold process_pdf
    rcases raw with e | rawPages
    · simp
    · by_cases h1 : (buildPagesData rawPages).isEmpty
      · simp [h1]
      · by_cases h2 : (docChunks (buildPagesData rawPages)).length > 0
        · rcases henc : encode ((docChunks (buildPagesData rawPages)).map (fun c => c.text)) with e | embeddings
          · simp [h1, h2, henc]
          · simp [h1, h2, henc]
        · simp [h1, h2]
  · intro e he hne
    subst he
    refine ⟨by simp [process_pdf], by simp [process_pdf], ?_⟩
    simp [process_pdf, update_status, hne]

/-- Witness for C10: a failed second `process_pdf` (extraction error) over
the `"alpha"` session updates `current_file` to `doc2.pdf` and the status
line shows `doc2.pdf` next to the previous document's chunk and vector
counts. -/
theorem current_file_updated_before_validation_witness :
    (process_pdf id (fun _ => Except.ok []) exReady "doc2.pdf"
        (Except.error "ExtractionError")).1.current_file = some "doc2.pdf" ∧
    update_status (process_pdf id (fun _ => Except.ok []) exReady "doc2.pdf"
        (Except.error "ExtractionError")).1 =
      "📄 الملف: " ++ "doc2.pdf" ++ statusSuffix exReady.chunks exReady.index :=
  ⟨(current_file_updated_before_validation id (fun _ => Except.ok []) exReady "doc2.pdf"
      (Except.error "ExtractionError")).1,
   ((current_file_updated_before_validation id (fun _ => Except.ok []) exReady "doc2.pdf"
      (Except.error "ExtractionError")).2 "ExtractionError" rfl (by decide)).2.2⟩
